import Mathlib

/-!
Shallow embedding of `src/palladium.py` (class `Palladium`, method
`configure_main`): the filelist generator that turns a list of source-file
descriptors, the `vlogdefine` / `vlogparam` parameter dictionaries, an
ordered list of include directories and the `vlan_opts` tool option into
two text filelists (`<name>.emu.f` and `<name>.sim.f`).
-/

namespace Palladium

/-- A Python scalar value as it may appear in the `vlogdefine` / `vlogparam`
dictionaries or as the value of the duck-typed `is_include_file` attribute. -/
inductive PyVal where
  | pyStr : String → PyVal
  | pyInt : Int → PyVal
  | pyBool : Bool → PyVal
  | pyNone : PyVal
  deriving DecidableEq, Repr

/-- Modelled from the spec: the helper `self._param_value_str` is inherited
from the host framework (`dagogo.eda_bridge.EdaBridge`), whose code is not
part of this repository's sources.  Spec section 3 describes the canonical
textual form it produces: numbers and strings verbatim, booleans as their
literal "True"/"False" text, `None` as empty. -/
def param_value_str : PyVal → String
  | .pyStr s => s
  | .pyInt n => toString n
  | .pyBool b => if b then "True" else "False"
  | .pyNone => ""

/-- A source-file descriptor as read by `configure_main`.  The duck-typed
attributes probed with `hasattr` (`is_include_file`, `partof`) are modelled
as `Option`s whose `some` case records the attribute's value; `none` means
the attribute is absent.  `logical_name` is always present on the framework's
file objects but may be `None`, hence also an `Option`. -/
structure SourceFile where
  name : String
  file_type : String
  logical_name : Option String
  is_include_file : Option PyVal
  partof : Option String
  deriving DecidableEq, Repr

/-- The per-instance inputs of `configure_main` that do not vary per file:
the design name and work root (used for the output paths), the two parameter
dictionaries (Python dicts, modelled as association lists in insertion
order) and the `vlan_opts` entry of `tool_options`. -/
structure Config where
  name : String
  work_root : String
  vlogdefine : List (String × PyVal)
  vlogparam : List (String × PyVal)
  vlan_opts : Option (List String)
  deriving DecidableEq, Repr

/-- Python truthiness of `f.logical_name` (line 139 of `palladium.py`):
`None` and the empty string are falsy. -/
def truthyName : Option String → Bool
  | none => false
  | some s => !s.isEmpty

/-- Python truthiness of `self.tool_options.get('vlan_opts', '')`
(line 147): an absent key yields the falsy default `''`; a present but
empty list is also falsy. -/
def truthyOpts : Option (List String) → Bool
  | none => false
  | some l => !l.isEmpty

/-- Lines 136-149 of `palladium.py`: compose the argument list for one
source file.  Each Python `args.append(...)` is an append of a singleton;
the three `for` loops are folds that append one token per entry. -/
def composeArgs (cfg : Config) (incdirs : List String) (f : SourceFile) :
    List String :=
  let args : List String := []
  let args := if f.file_type == "systemVerilogSource" then args ++ ["-sv"]
              else args
  let args := if truthyName f.logical_name then
                args ++ ["-lib " ++ f.logical_name.getD ""]
              else args
  let args := cfg.vlogdefine.foldl
    (fun a kv => a ++ ["+define+" ++ kv.1 ++ "=" ++ param_value_str kv.2]) args
  let args := cfg.vlogparam.foldl
    (fun a kv => a ++ [kv.1 ++ "=" ++ param_value_str kv.2]) args
  let args := incdirs.foldl (fun a v => a ++ ["+incdir+" ++ v]) args
  let args := if truthyOpts cfg.vlan_opts then
                args ++ [String.intercalate " " (cfg.vlan_opts.getD [])]
              else args
  args ++ [f.name]

/-- Line 152 / 154: `' '.join(args)`. -/
def lineFor (cfg : Config) (incdirs : List String) (f : SourceFile) : String :=
  String.intercalate " " (composeArgs cfg incdirs f)

/-- Line 151: `hasattr(f, 'partof') and (f.partof == 'dut')`. -/
def routesToEmu (f : SourceFile) : Bool :=
  f.partof == some "dut"

/-- The spec's data-model flag `belongsToDeviceUnderTest`, as the code
realises it: the duck-typed `partof` attribute is present and equals the
exact string "dut". -/
def belongsToDeviceUnderTest (f : SourceFile) : Bool :=
  f.partof == some "dut"

/-- The eligibility predicate of the spec, as lines 130-133 realise it: the
file type is one of the two Verilog kinds and the `is_include_file`
attribute is absent (its presence alone triggers the `continue`). -/
def eligible (f : SourceFile) : Bool :=
  (f.file_type == "verilogSource" || f.file_type == "systemVerilogSource")
    && f.is_include_file.isNone

/-- Lines 129-154: the loop over `src_files`.  The returned pair collects,
in write order, the lines written to the emulation and the simulation
filelist.  The branch structure mirrors the source: the outer membership
test on `file_type`, the `hasattr(f, 'is_include_file')` skip, and the
`partof == 'dut'` routing. -/
def filelistLines (cfg : Config) (incdirs : List String) :
    List SourceFile → List String × List String
  | [] => ([], [])
  | f :: rest =>
    let p := filelistLines cfg incdirs rest
    if f.file_type == "verilogSource" || f.file_type == "systemVerilogSource"
    then
      if f.is_include_file.isSome then p
      else
        if routesToEmu f then (lineFor cfg incdirs f :: p.1, p.2)
        else (p.1, lineFor cfg incdirs f :: p.2)
    else p

/-- The bytes of one output file: the concatenation, in write order, of the
written chunks, each line followed by the newline appended at
lines 152 / 154. -/
def render : List String → String
  | [] => ""
  | l :: ls => l ++ "\n" ++ render ls

/-- An I/O error surfaced by `open`. -/
structure IoError where
  msg : String
  deriving DecidableEq, Repr

/-- Line 124: `os.path.join(self.work_root, self.name + '.emu.f')`. -/
def emuPath (cfg : Config) : String :=
  cfg.work_root ++ "/" ++ (cfg.name ++ ".emu.f")

/-- Line 126: `os.path.join(self.work_root, self.name + '.sim.f')`. -/
def simPath (cfg : Config) : String :=
  cfg.work_root ++ "/" ++ (cfg.name ++ ".sim.f")

/-- Lines 124-157 of `configure_main`, after the fileset query: open the
emulation filelist, open the simulation filelist, write the per-file lines,
close both.  `openW` models `open(path, 'w')`; a raised `OSError` is an
`Except.error`, and since the method has no `try`/`except` the `do`-bind
propagates it unchanged.  On success the result carries the final contents
of the two files. -/
def configure_main (openW : String → Except IoError Unit) (cfg : Config)
    (src_files : List SourceFile) (incdirs : List String) :
    Except IoError (String × String) := do
  let _ ← openW (emuPath cfg)
  let _ ← openW (simPath cfg)
  let p := filelistLines cfg incdirs src_files
  pure (render p.1, render p.2)

/-- Refinement reference for the line layout, written from the spec's words
(section 4.1, step 3, and section 8): the groups
[sv-flag?] [lib-flag?] [defines...] [params...] [incdirs...]
[extra-tool-tokens?] [file path], each group in the iteration order of its
input collection, concatenated in that fixed order. -/
def specTokens (cfg : Config) (incdirs : List String) (f : SourceFile) :
    List String :=
  (if f.file_type == "systemVerilogSource" then ["-sv"] else [])
  ++ (if truthyName f.logical_name then ["-lib " ++ f.logical_name.getD ""]
      else [])
  ++ cfg.vlogdefine.map
      (fun kv => "+define+" ++ kv.1 ++ "=" ++ param_value_str kv.2)
  ++ cfg.vlogparam.map (fun kv => kv.1 ++ "=" ++ param_value_str kv.2)
  ++ incdirs.map (fun v => "+incdir+" ++ v)
  ++ (if truthyOpts cfg.vlan_opts then
        [String.intercalate " " (cfg.vlan_opts.getD [])]
      else [])
  ++ [f.name]

section ConcreteInputs

/-- A configuration for concrete witnesses: one define, one parameter, no
extra tool options. -/
def cfgEx : Config :=
  { name := "top", work_root := "/work",
    vlogdefine := [("FOO", .pyInt 1)],
    vlogparam := [("WIDTH", .pyInt 8)],
    vlan_opts := none }

/-- A configuration whose single define's value formats to the empty
string. -/
def cfgEmptyDefine : Config :=
  { name := "top", work_root := "/work",
    vlogdefine := [("FOO", .pyStr "")],
    vlogparam := [], vlan_opts := none }

/-- An eligible SystemVerilog descriptor routed to the simulation file. -/
def fGood : SourceFile :=
  { name := "tb.sv", file_type := "systemVerilogSource",
    logical_name := none, is_include_file := none, partof := none }

/-- An eligible descriptor routed to the emulation file. -/
def fDut : SourceFile :=
  { name := "dut.sv", file_type := "systemVerilogSource",
    logical_name := some "worklib", is_include_file := none,
    partof := some "dut" }

/-- A descriptor of a foreign kind, flagged as part of the DUT: ineligible
despite the routing flag. -/
def fOther : SourceFile :=
  { name := "pkg.vhd", file_type := "vhdlSource",
    logical_name := none, is_include_file := none, partof := some "dut" }

/-- A plain eligible Verilog descriptor. -/
def fPlain : SourceFile :=
  { name := "plain.v", file_type := "verilogSource",
    logical_name := none, is_include_file := none, partof := none }

/-- A Verilog descriptor carrying `is_include_file = False`: the attribute
is present though its value is falsy. -/
def fIncFalse : SourceFile :=
  { name := "hdr.vh", file_type := "verilogSource",
    logical_name := none, is_include_file := some (.pyBool false),
    partof := some "dut" }

/-- An `open` model that always fails with the same error. -/
def failOpen : String → Except IoError Unit :=
  fun _ => .error ⟨"EACCES"⟩

/-- An `open` model that fails only for the simulation filelist path. -/
def failSimOpen : String → Except IoError Unit :=
  fun p => if p == simPath cfgEx then .error ⟨"ENOSPC"⟩ else .ok ()

/-- An `open` model that always succeeds. -/
def okOpen : String → Except IoError Unit :=
  fun _ => .ok ()

end ConcreteInputs

section Helpers

/-- A Python loop that appends one element per iteration is a `map`
concatenated after the accumulator. -/
theorem foldl_append_singleton {α β : Type} (g : α → β) :
    ∀ (l : List α) (init : List β),
      l.foldl (fun a x => a ++ [g x]) init = init ++ l.map g := by
  intro l
  induction l with
  | nil => intro init; simp
  | cons x xs ih =>
    intro init
    simp only [List.foldl_cons, List.map_cons]
    rw [ih]
    simp

/-- The composed argument list equals the spec-shaped token list. -/
theorem composeArgs_eq_specTokens (cfg : Config) (incdirs : List String)
    (f : SourceFile) :
    composeArgs cfg incdirs f = specTokens cfg incdirs f := by
  simp only [composeArgs, specTokens, foldl_append_singleton,
    List.nil_append, List.append_assoc]
  by_cases h1 : (f.file_type == "systemVerilogSource") = true <;>
    by_cases h2 : truthyName f.logical_name = true <;>
    by_cases h3 : truthyOpts cfg.vlan_opts = true <;>
    simp [h1, h2, h3, List.append_assoc]

/-- Characterisation of the main loop: the emulation lines are exactly the
formatted lines of the eligible DUT descriptors, in input order, and the
simulation lines those of the remaining eligible descriptors. -/
theorem filelistLines_eq (cfg : Config) (incdirs : List String)
    (files : List SourceFile) :
    filelistLines cfg incdirs files =
      ((files.filter (fun f => eligible f && routesToEmu f)).map
          (lineFor cfg incdirs),
       (files.filter (fun f => eligible f && !routesToEmu f)).map
          (lineFor cfg incdirs)) := by
  induction files with
  | nil => rfl
  | cons f rest ih =>
    simp only [filelistLines, ih, List.filter_cons]
    by_cases hk : (f.file_type == "verilogSource"
        || f.file_type == "systemVerilogSource") = true
    · by_cases hi : f.is_include_file.isSome
      · have he : eligible f = false := by
          cases hv : f.is_include_file with
          | none => rw [hv] at hi; simp at hi
          | some v => simp [eligible, hv]
        simp [hk, hi, he]
      · have he : eligible f = true := by
          cases hv : f.is_include_file with
          | none => simp [eligible, hk, hv]
          | some v => rw [hv] at hi; simp at hi
        by_cases hd : routesToEmu f
        · simp [hk, hi, hd, he]
        · simp [hk, hi, hd, he]
    · have he : eligible f = false := by
        simp [eligible]
        intro h
        rcases h with h | h <;> simp [h] at hk
      simp [hk, he]

/-- Splitting a filter by a second boolean predicate preserves total
length. -/
theorem length_filter_split {α : Type} (p q : α → Bool) (l : List α) :
    (l.filter (fun x => p x && q x)).length
      + (l.filter (fun x => p x && !q x)).length
      = (l.filter p).length := by
  induction l with
  | nil => rfl
  | cons x xs ih =>
    simp only [List.filter_cons]
    by_cases hp : p x <;> by_cases hq : q x <;>
      simp [hp, hq, List.length_cons] <;> omega

/-- Rendering distributes over concatenation of the written lines. -/
theorem render_append (a b : List String) :
    render (a ++ b) = render a ++ render b := by
  induction a with
  | nil => simp [render]
  | cons l ls ih => simp [render, ih, String.append_assoc]

end Helpers

section Claims

/-- C1: for every input list, every eligible descriptor (Verilog or
SystemVerilog kind, `is_include_file` absent) produces exactly one line in
exactly one of the two outputs: the emulation lines are exactly the
formatted lines of the eligible DUT-routed descriptors, the simulation
lines exactly those of the remaining eligible descriptors, and the total
line count across both outputs equals the number of eligible
descriptors. -/
theorem eligible_exactly_one_line (cfg : Config) (incdirs : List String)
    (files : List SourceFile) :
    (filelistLines cfg incdirs files).1
      = (files.filter (fun f => eligible f && routesToEmu f)).map
          (lineFor cfg incdirs)
    ∧ (filelistLines cfg incdirs files).2
      = (files.filter (fun f => eligible f && !routesToEmu f)).map
          (lineFor cfg incdirs)
    ∧ (filelistLines cfg incdirs files).1.length
        + (filelistLines cfg incdirs files).2.length
      = (files.filter (fun f => eligible f)).length := by
  rw [filelistLines_eq]
  refine ⟨rfl, rfl, ?_⟩
  simp only [List.length_map]
  exact length_filter_split eligible routesToEmu files

/-- C2: a descriptor whose kind is outside the two Verilog kinds, or one
carrying the `is_include_file` attribute, contributes zero lines to both
output files, wherever it sits in the input list and regardless of its
other flags. -/
theorem ineligible_zero_lines (cfg : Config) (incdirs : List String)
    (pre post : List SourceFile) (f : SourceFile)
    (h : (f.file_type ≠ "verilogSource" ∧ f.file_type ≠ "systemVerilogSource")
          ∨ f.is_include_file.isSome = true) :
    filelistLines cfg incdirs (pre ++ f :: post)
      = filelistLines cfg incdirs (pre ++ post) := by
  have he : eligible f = false := by
    rcases h with ⟨h1, h2⟩ | h3
    · simp [eligible, h1, h2]
    · cases hv : f.is_include_file with
      | none => rw [hv] at h3; simp at h3
      | some v => simp [eligible, hv]
  rw [filelistLines_eq, filelistLines_eq]
  simp [List.filter_append, List.filter_cons, he]

/-- C2 witness: `fOther` (a VHDL file flagged as part of the DUT)
contributes nothing. -/
theorem ineligible_zero_lines_witness :
    filelistLines cfgEx [] ([fPlain] ++ fOther :: [fGood])
      = filelistLines cfgEx [] ([fPlain] ++ [fGood]) :=
  ineligible_zero_lines cfgEx [] [fPlain] [fGood] fOther
    (Or.inl ⟨by decide, by decide⟩)

/-- C3: the tokens of every line appear in the fixed order
[sv-flag?] [lib-flag?] [defines...] [params...] [incdirs...]
[extra-tool-tokens?] [file path], each group in the iteration order of its
input collection, and the line joins them with single spaces. -/
theorem line_token_order (cfg : Config) (incdirs : List String)
    (f : SourceFile) :
    composeArgs cfg incdirs f = specTokens cfg incdirs f
    ∧ lineFor cfg incdirs f
        = String.intercalate " " (specTokens cfg incdirs f) := by
  refine ⟨composeArgs_eq_specTokens cfg incdirs f, ?_⟩
  rw [lineFor, composeArgs_eq_specTokens]

/-- C4 counterexample: the claim states that when the value formats to the
empty string the `=` sign is omitted, yielding the bare token
`+define+NAME`; but with the single define FOO = "" the composed argument
list carries the token "+define+FOO=" with a trailing `=`, and the bare
token "+define+FOO" appears nowhere. -/
theorem define_token_empty_value_counterexample :
    composeArgs cfgEmptyDefine [] fPlain = ["+define+FOO=", "plain.v"]
    ∧ "+define+FOO" ∉ composeArgs cfgEmptyDefine [] fPlain := by
  constructor
  · rfl
  · decide

/-- C4 (amended): for every entry (NAME, VALUE) of the global defines, the
emitted define token is `+define+NAME=V` with V the canonical textual form
of VALUE; the `=` sign is always present, so a value that formats to the
empty string yields `+define+NAME=`, not the bare `+define+NAME`. -/
theorem define_token_format (cfg : Config) (incdirs : List String)
    (f : SourceFile) (k : String) (v : PyVal)
    (hkv : (k, v) ∈ cfg.vlogdefine) :
    ("+define+" ++ k ++ "=" ++ param_value_str v)
      ∈ composeArgs cfg incdirs f := by
  have hmem := List.mem_map_of_mem
    (fun kv : String × PyVal =>
      "+define+" ++ kv.1 ++ "=" ++ param_value_str kv.2) hkv
  rw [composeArgs_eq_specTokens]
  simp only [specTokens, List.mem_append]
  tauto

/-- C4 witness: in `cfgEx`, the define FOO = 1 yields the token
`+define+FOO=1`. -/
theorem define_token_format_witness :
    ("FOO", PyVal.pyInt 1) ∈ cfgEx.vlogdefine
    ∧ ("+define+" ++ "FOO" ++ "=" ++ param_value_str (PyVal.pyInt 1))
        ∈ composeArgs cfgEx [] fPlain :=
  ⟨by decide,
   define_token_format cfgEx [] fPlain "FOO" (PyVal.pyInt 1) (by decide)⟩

/-- C5: appending an eligible descriptor flagged as belonging to the device
under test appends its formatted line plus a newline to the emulation file
and leaves the simulation lines unchanged; otherwise the line plus newline
goes to the simulation file and the emulation lines are unchanged. -/
theorem routing_by_dut_flag (cfg : Config) (incdirs : List String)
    (files : List SourceFile) (f : SourceFile) (he : eligible f = true) :
    (belongsToDeviceUnderTest f = true →
      render (filelistLines cfg incdirs (files ++ [f])).1
        = render (filelistLines cfg incdirs files).1
            ++ (lineFor cfg incdirs f ++ "\n")
      ∧ (filelistLines cfg incdirs (files ++ [f])).2
        = (filelistLines cfg incdirs files).2)
    ∧ (belongsToDeviceUnderTest f = false →
      render (filelistLines cfg incdirs (files ++ [f])).2
        = render (filelistLines cfg incdirs files).2
            ++ (lineFor cfg incdirs f ++ "\n")
      ∧ (filelistLines cfg incdirs (files ++ [f])).1
        = (filelistLines cfg incdirs files).1) := by
  constructor
  · intro hb
    have hr : routesToEmu f = true := hb
    rw [filelistLines_eq, filelistLines_eq]
    simp [List.filter_append, he, hr, render_append, render]
  · intro hb
    have hr : routesToEmu f = false := hb
    rw [filelistLines_eq, filelistLines_eq]
    simp [List.filter_append, he, hr, render_append, render]

/-- C5 witness: appending the DUT file `fDut` extends the emulation file by
its line plus newline. -/
theorem routing_by_dut_flag_witness :
    eligible fDut = true
    ∧ belongsToDeviceUnderTest fDut = true
    ∧ render (filelistLines cfgEx ["/inc"] ([fGood] ++ [fDut])).1
        = render (filelistLines cfgEx ["/inc"] [fGood]).1
            ++ (lineFor cfgEx ["/inc"] fDut ++ "\n") :=
  ⟨by decide, by decide,
   ((routing_by_dut_flag cfgEx ["/inc"] [fGood] fDut (by decide)).1
      (by decide)).1⟩

/-- C6: generation is deterministic: two runs on identical inputs (same
open behaviour, configuration, descriptor list and include directories)
produce identical results, hence byte-identical emulation and simulation
file contents. -/
theorem generation_deterministic (o1 o2 : String → Except IoError Unit)
    (cfg1 cfg2 : Config) (fs1 fs2 : List SourceFile)
    (i1 i2 : List String) (ho : o1 = o2) (hc : cfg1 = cfg2)
    (hf : fs1 = fs2) (hi : i1 = i2) :
    configure_main o1 cfg1 fs1 i1 = configure_main o2 cfg2 fs2 i2 := by
  subst ho hc hf hi
  rfl

/-- C6 witness: a concrete run equals its identical re-run. -/
theorem generation_deterministic_witness :
    configure_main okOpen cfgEx [fDut, fGood] ["/inc"]
      = configure_main okOpen cfgEx [fDut, fGood] ["/inc"] :=
  generation_deterministic okOpen okOpen cfgEx cfgEx [fDut, fGood]
    [fDut, fGood] ["/inc"] ["/inc"] rfl rfl rfl rfl

/-- C7: an error from opening either output path propagates to the caller
unchanged — if opening the emulation path fails with e, the run fails with
exactly e; if it succeeds and opening the simulation path fails with e, the
run fails with exactly e; and when both opens succeed no other failure mode
exists: the run returns the two rendered file contents. -/
theorem open_failure_propagates (openW : String → Except IoError Unit)
    (cfg : Config) (files : List SourceFile) (incdirs : List String) :
    (∀ e, openW (emuPath cfg) = .error e →
      configure_main openW cfg files incdirs = .error e)
    ∧ (∀ e, openW (emuPath cfg) = .ok () → openW (simPath cfg) = .error e →
      configure_main openW cfg files incdirs = .error e)
    ∧ (openW (emuPath cfg) = .ok () → openW (simPath cfg) = .ok () →
      configure_main openW cfg files incdirs
        = .ok (render (filelistLines cfg incdirs files).1,
               render (filelistLines cfg incdirs files).2)) := by
  refine ⟨?_, ?_, ?_⟩
  · intro e he
    simp [configure_main, he, Except.instMonad, Except.bind, Except.map, Except.pure]
  · intro e h1 h2
    simp [configure_main, h1, h2, Except.instMonad, Except.bind, Except.map, Except.pure]
  · intro h1 h2
    simp [configure_main, h1, h2, Except.instMonad, Except.bind, Except.map, Except.pure]

/-- C7 witness: an open that always fails with EACCES surfaces EACCES; an
open that fails only on the simulation path surfaces ENOSPC. -/
theorem open_failure_propagates_witness :
    configure_main failOpen cfgEx [fGood] [] = .error ⟨"EACCES"⟩
    ∧ configure_main failSimOpen cfgEx [fGood] [] = .error ⟨"ENOSPC"⟩ :=
  ⟨(open_failure_propagates failOpen cfgEx [fGood] []).1 ⟨"EACCES"⟩ rfl,
   (open_failure_propagates failSimOpen cfgEx [fGood] []).2.1 ⟨"ENOSPC"⟩
     rfl rfl⟩

/-- C8: the include-only skip tests only the presence of the
`is_include_file` attribute, not its value: a descriptor carrying the
attribute with any value whatsoever — False included — contributes zero
lines to both outputs, wherever it sits in the input list. -/
theorem include_attr_presence_skips (cfg : Config) (incdirs : List String)
    (pre post : List SourceFile) (f : SourceFile) (v : PyVal)
    (hv : f.is_include_file = some v) :
    filelistLines cfg incdirs (pre ++ f :: post)
      = filelistLines cfg incdirs (pre ++ post) := by
  have he : eligible f = false := by simp [eligible, hv]
  rw [filelistLines_eq, filelistLines_eq]
  simp [List.filter_append, List.filter_cons, he]

/-- C8 witness: `fIncFalse` carries `is_include_file = False` (a falsy
value) and is nonetheless skipped. -/
theorem include_attr_presence_skips_witness :
    fIncFalse.is_include_file = some (PyVal.pyBool false)
    ∧ filelistLines cfgEx [] ([] ++ fIncFalse :: [fPlain])
        = filelistLines cfgEx [] ([] ++ [fPlain]) :=
  ⟨rfl,
   include_attr_presence_skips cfgEx [] [] [fPlain] fIncFalse
     (PyVal.pyBool false) rfl⟩

/-- C9: routing to the emulation file requires the `partof` attribute to be
present with the exact value "dut": appending an eligible descriptor whose
`partof` is `some "dut"` extends the emulation lines, while one whose
`partof` is absent or holds any other value extends the simulation
lines. -/
theorem emu_routing_requires_partof_dut (cfg : Config)
    (incdirs : List String) (files : List SourceFile) (f : SourceFile)
    (he : eligible f = true) :
    (f.partof = some "dut" →
      filelistLines cfg incdirs (files ++ [f])
        = ((filelistLines cfg incdirs files).1 ++ [lineFor cfg incdirs f],
           (filelistLines cfg incdirs files).2))
    ∧ (f.partof ≠ some "dut" →
      filelistLines cfg incdirs (files ++ [f])
        = ((filelistLines cfg incdirs files).1,
           (filelistLines cfg incdirs files).2
             ++ [lineFor cfg incdirs f])) := by
  constructor
  · intro hp
    have hr : routesToEmu f = true := by
      simp [routesToEmu, hp]
    rw [filelistLines_eq, filelistLines_eq]
    simp [List.filter_append, he, hr]
  · intro hp
    have hr : routesToEmu f = false := by
      simp only [routesToEmu, beq_eq_false_iff_ne, ne_eq]
      exact hp
    rw [filelistLines_eq, filelistLines_eq]
    simp [List.filter_append, he, hr]

/-- C9 witness: `fGood` has no `partof` attribute and its line goes to the
simulation file. -/
theorem emu_routing_requires_partof_dut_witness :
    eligible fGood = true
    ∧ filelistLines cfgEx [] ([fDut] ++ [fGood])
        = ((filelistLines cfgEx [] [fDut]).1,
           (filelistLines cfgEx [] [fDut]).2 ++ [lineFor cfgEx [] fGood]) :=
  ⟨by decide,
   (emu_routing_requires_partof_dut cfgEx [] [fDut] fGood (by decide)).2
     (by decide)⟩

/-- C10: both output files are created before any descriptor is examined —
when both opens succeed a run returns contents for both files whatever the
descriptor list, and when the list holds no eligible descriptor (an empty
list in particular) both files exist and are empty. -/
theorem outputs_created_on_success (openW : String → Except IoError Unit)
    (cfg : Config) (files : List SourceFile) (incdirs : List String)
    (he : openW (emuPath cfg) = .ok ())
    (hs : openW (simPath cfg) = .ok ()) :
    (∃ ec sc, configure_main openW cfg files incdirs = .ok (ec, sc))
    ∧ (files.filter (fun f => eligible f) = [] →
      configure_main openW cfg files incdirs = .ok ("", "")) := by
  constructor
  · exact ⟨render (filelistLines cfg incdirs files).1,
           render (filelistLines cfg incdirs files).2,
           by simp [configure_main, he, hs, Except.instMonad, Except.bind, Except.map, Except.pure]⟩
  · intro hnone
    have hall : ∀ f ∈ files, eligible f = false := by
      intro a ha
      have := List.filter_eq_nil_iff.mp hnone a ha
      simpa using this
    have h1 : files.filter (fun f => eligible f && routesToEmu f) = [] := by
      rw [List.filter_eq_nil_iff]
      intro a ha
      simp [hall a ha]
    have h2 : files.filter (fun f => eligible f && !routesToEmu f) = [] := by
      rw [List.filter_eq_nil_iff]
      intro a ha
      simp [hall a ha]
    simp [configure_main, he, hs, filelistLines_eq, h1, h2, render, Except.instMonad, Except.bind, Except.map, Except.pure]

/-- C10 witness: on an empty descriptor list both files exist and are
empty. -/
theorem outputs_created_on_success_witness :
    configure_main okOpen cfgEx [] [] = .ok ("", "") :=
  (outputs_created_on_success okOpen cfgEx [] [] rfl rfl).2 rfl

end Claims

end Palladium
